import Mathlib

set_option maxRecDepth 16384

/-!
Shallow embedding of MyElectricityMonitor (HoymilesHmDtu.py, SmlDecoder.py,
EbzDD3.py) and proofs about it.

Bytes are modelled as `Nat` (all values produced by the byte-level code are
below 256); byte strings as `List Nat`; Python `bytearray` slices `a[i:j]`
as `(a.take j).drop i`; Python indexing `a[i]`, which raises `IndexError`
out of range, as `List.get?` with an `Except` error; Python functions that
can raise return `Except String α`.
-/

namespace MyEM

/-- Python slice `a[i:j]` for nonnegative `i ≤ j`. -/
def pySlice (l : List Nat) (i j : Nat) : List Nat :=
  (l.take j).drop i

/-- Python `int.from_bytes(bs, "big", signed=False)`. -/
def intFromBytesBE (bs : List Nat) : Nat :=
  bs.foldl (fun a b => a * 256 + b) 0

/-- Big-endian byte list of `value` with exactly `len` bytes (low bytes last). -/
def natToBytesBE : Nat → Nat → List Nat
  | _, 0 => []
  | value, len + 1 => natToBytesBE (value / 256) len ++ [value % 256]

/-- Python `value.to_bytes(len, "big", signed=False)`: raises `OverflowError`
when the value does not fit. -/
def intToBytesBE (value len : Nat) : Except String (List Nat) :=
  if value < 256 ^ len then .ok (natToBytesBE value len) else .error "OverflowError"

/-! ## HoymilesHmDtu: escape codec (`__EscapeData` / `__UnescapeData`) -/

/-- `HoymilesHmDtu.__EscapeData`: 0x7D/0x7E/0x7F become 0x7D followed by
0x5D/0x5E/0x5F; every other byte passes through. -/
def escapeData : List Nat → List Nat
  | [] => []
  | b :: rest =>
    (if b = 0x7D then [0x7D, 0x5D]
     else if b = 0x7E then [0x7D, 0x5E]
     else if b = 0x7F then [0x7D, 0x5F]
     else [b]) ++ escapeData rest

mutual
/-- `HoymilesHmDtu.__UnescapeData`: inverse transform; the bytes after a
0x7D are handled by `unescapeSpecial`. -/
def unescapeData : List Nat → Except String (List Nat)
  | [] => .ok []
  | b :: rest =>
    if b = 0x7D then unescapeSpecial rest
    else (fun t => b :: t) <$> unescapeData rest

/-- The bytes following a 0x7D in `HoymilesHmDtu.__UnescapeData`: a 0x7D as
last byte raises `IndexError` (the code reads `input[idx]` past the end),
a 0x7D followed by anything other than 0x5D/0x5E/0x5F raises the
"Invalid data" exception. -/
def unescapeSpecial : List Nat → Except String (List Nat)
  | [] => .error "IndexError"
  | c :: rest2 =>
    if c = 0x5D then (fun t => 0x7D :: t) <$> unescapeData rest2
    else if c = 0x5E then (fun t => 0x7E :: t) <$> unescapeData rest2
    else if c = 0x5F then (fun t => 0x7F :: t) <$> unescapeData rest2
    else .error "UnescapeData(): Invalid data, can not decode."
end

/-! ## HoymilesHmDtu: checksum engines (`__CalculateCrc8` / `__CalculateCrc16`) -/

/-- The inner 8-round loop of `HoymilesHmDtu.__CalculateCrc8`:
`crc <<= 1; if crc & 0x100: crc ^= 0x01; crc &= 0xFF`. -/
def crc8Bits : Nat → Nat → Nat
  | 0, crc => crc
  | k + 1, crc =>
    let c := crc * 2
    crc8Bits k ((if c &&& 0x100 ≠ 0 then c ^^^ 0x01 else c) &&& 0xFF)

/-- One byte step of `HoymilesHmDtu.__CalculateCrc8`: `crc ^= data[idx]`
followed by the 8 bit rounds. -/
def crc8Byte (crc b : Nat) : Nat := crc8Bits 8 (crc ^^^ b)

/-- `HoymilesHmDtu.__CalculateCrc8(data, dataLen)`. All call sites pass
`dataLen ≤ data.length`, where `take` agrees with the Python index loop. -/
def calculateCrc8 (data : List Nat) (dataLen : Nat) : Nat :=
  (data.take dataLen).foldl crc8Byte 0

/-- The inner 8-round loop of `HoymilesHmDtu.__CalculateCrc16`:
`if crc & 1: crc >>= 1; crc ^= 0xA001 else crc >>= 1`. -/
def crc16Bits : Nat → Nat → Nat
  | 0, crc => crc
  | k + 1, crc =>
    crc16Bits k (if crc &&& 1 ≠ 0 then (crc >>> 1) ^^^ 0xA001 else crc >>> 1)

/-- One byte step of `HoymilesHmDtu.__CalculateCrc16`. -/
def crc16Byte (crc b : Nat) : Nat := crc16Bits 8 (crc ^^^ b)

/-- `HoymilesHmDtu.__CalculateCrc16(data, dataLen)`. All call sites pass
`dataLen ≤ data.length`, where `take` agrees with the Python index loop. -/
def calculateCrc16 (data : List Nat) (dataLen : Nat) : Nat :=
  (data.take dataLen).foldl crc16Byte 0xFFFF

/-! ## HoymilesHmDtu: response validation and reassembly -/

/-- Python list indexing `l[i]` for `i ≥ 0`: `IndexError` out of range. -/
def pyGet (l : List Nat) (i : Nat) : Except String Nat :=
  match l[i]? with
  | some b => .ok b
  | none => .error "IndexError"

/-- Python `l[-1]`: `IndexError` on an empty list. -/
def pyLast (l : List Nat) : Except String Nat :=
  match l.getLast? with
  | some b => .ok b
  | none => .error "IndexError"

/-- `HoymilesHmDtu.__CheckChecksum`: CRC8 over all but the last byte must
equal the last byte. -/
def checkChecksum (packet : List Nat) : Except String Bool := do
  let checksum1 := calculateCrc8 packet (packet.length - 1)
  let checksum2 ← pyLast packet
  pure (decide (checksum1 = checksum2))

/-- The frame number `__EvaluateInverterInfoResponse` expects at index `idx`:
`idx + 1`, ORed with 0x80 on the last frame. -/
def expectedFrameNumber (numberOfResponses idx : Nat) : Nat :=
  if idx + 1 = numberOfResponses then (idx + 1) ||| 0x80 else idx + 1

/-- `response[10:-1]`: payload with the 10-byte header and the trailing
checksum byte stripped. -/
def stripFrame (r : List Nat) : List Nat := pySlice r 10 (r.length - 1)

/-- The `for idx in range(numberOfResponses)` loop of
`HoymilesHmDtu.__EvaluateInverterInfoResponse`, iterating over the response
list (whose length equals `numberOfResponses` at the call site) with the
running index and the accumulated `responseData`. -/
def evalLoop (addr : List Nat) (numberOfResponses : Nat) :
    Nat → List (List Nat) → List Nat → Except String (Bool × List Nat)
  | _, [], acc => .ok (true, acc)
  | idx, response :: rest, acc => do
    let frameNumberResponse ← pyGet response 9
    if frameNumberResponse ≠ expectedFrameNumber numberOfResponses idx then
      .ok (false, acc)
    else if pySlice response 1 5 ≠ addr ∨ pySlice response 5 9 ≠ addr then
      .ok (false, acc)
    else do
      let ok ← checkChecksum response
      if ok then evalLoop addr numberOfResponses (idx + 1) rest (acc ++ stripFrame response)
      else .ok (false, acc)

/-- `HoymilesHmDtu.__EvaluateInverterInfoResponse`. -/
def evaluateInverterInfoResponse (responseList : List (List Nat))
    (inverterRadioAddress : List Nat) (inverterNumberOfChannels : Nat) :
    Except String (Bool × List Nat) :=
  let numberOfResponses := inverterNumberOfChannels + 1
  if responseList.length ≠ numberOfResponses then .ok (false, [])
  else evalLoop inverterRadioAddress numberOfResponses 0 responseList []

/-! ## HoymilesHmDtu: info extraction -/

/-- A value of the Python info dict
`dict[str, float | list[dict[str, float]]]`; floats are modelled as exact
rationals, dicts as insertion-ordered association lists. -/
inductive InfoValue where
  | num (q : ℚ)
  | channels (cs : List (List (String × ℚ)))
deriving DecidableEq

/-- `int.from_bytes(d[i:j], "big")` as a rational, ready for division. -/
def beField (d : List Nat) (i j : Nat) : ℚ := (intFromBytesBE (pySlice d i j) : ℚ)

/-- `HoymilesHmDtu.__ExtractInverterInfoOneChannel`. -/
def extractInverterInfoOneChannel (d : List Nat) : List (String × InfoValue) :=
  let channel1 : List (String × ℚ) :=
    [("DC V", beField d 2 4 / 10),
     ("DC I", beField d 4 6 / 100),
     ("DC P", beField d 6 8 / 10),
     ("DC E total", beField d 8 12 / 1000),
     ("DC E day", beField d 12 14 / 1)]
  [("Channels", .channels [channel1]),
   ("AC V", .num (beField d 14 16 / 10)),
   ("AC F", .num (beField d 16 18 / 100)),
   ("AC P", .num (beField d 18 20 / 10)),
   ("Q", .num (beField d 20 22 / 10)),
   ("AC I", .num (beField d 22 24 / 100)),
   ("AC PF", .num (beField d 24 26 / 1000)),
   ("T", .num (beField d 26 28 / 10)),
   ("EVT", .num (beField d 28 30 / 1))]

/-- `HoymilesHmDtu.__ExtractInverterInfoTwoChannels`. -/
def extractInverterInfoTwoChannels (d : List Nat) : List (String × InfoValue) :=
  let channel1 : List (String × ℚ) :=
    [("DC V", beField d 2 4 / 10),
     ("DC I", beField d 4 6 / 100),
     ("DC P", beField d 6 8 / 10),
     ("DC E total", beField d 14 18 / 1000),
     ("DC E day", beField d 22 24 / 1)]
  let channel2 : List (String × ℚ) :=
    [("DC V", beField d 8 10 / 10),
     ("DC I", beField d 10 12 / 100),
     ("DC P", beField d 12 14 / 10),
     ("DC E total", beField d 18 22 / 1000),
     ("DC E day", beField d 24 26 / 1)]
  [("Channels", .channels [channel1, channel2]),
   ("AC V", .num (beField d 26 28 / 10)),
   ("AC F", .num (beField d 28 30 / 100)),
   ("AC P", .num (beField d 30 32 / 10)),
   ("Q", .num (beField d 32 34 / 10)),
   ("AC I", .num (beField d 34 36 / 100)),
   ("AC PF", .num (beField d 36 38 / 1000)),
   ("T", .num (beField d 38 40 / 10)),
   ("EVT", .num (beField d 40 42 / 1))]

/-- `HoymilesHmDtu.__ExtractInverterInfoFourChannels` (offsets verbatim from
the source). -/
def extractInverterInfoFourChannels (d : List Nat) : List (String × InfoValue) :=
  let channel1 : List (String × ℚ) :=
    [("DC V", beField d 2 4 / 10),
     ("DC I", beField d 4 6 / 100),
     ("DC P", beField d 8 10 / 10),
     ("DC E total", beField d 12 16 / 1000),
     ("DC E day", beField d 20 22 / 1)]
  let channel2 : List (String × ℚ) :=
    [("DC V", beField d 2 4 / 10),
     ("DC I", beField d 6 8 / 100),
     ("DC P", beField d 10 12 / 10),
     ("DC E total", beField d 16 20 / 1000),
     ("DC E day", beField d 22 24 / 1)]
  let channel3 : List (String × ℚ) :=
    [("DC V", beField d 24 26 / 10),
     ("DC I", beField d 26 28 / 100),
     ("DC P", beField d 30 32 / 10),
     ("DC E total", beField d 34 38 / 1000),
     ("DC E day", beField d 42 44 / 1)]
  let channel4 : List (String × ℚ) :=
    [("DC V", beField d 24 26 / 10),
     ("DC I", beField d 28 30 / 100),
     ("DC P", beField d 32 34 / 10),
     ("DC E total", beField d 38 42 / 1000),
     ("DC E day", beField d 44 46 / 1)]
  [("Channels", .channels [channel1, channel2, channel3, channel4]),
   ("AC V", .num (beField d 46 48 / 10)),
   ("AC F", .num (beField d 48 50 / 100)),
   ("AC P", .num (beField d 50 52 / 10)),
   ("Q", .num (beField d 52 54 / 10)),
   ("AC I", .num (beField d 54 56 / 100)),
   ("AC PF", .num (beField d 56 58 / 1000)),
   ("T", .num (beField d 58 60 / 10)),
   ("EVT", .num (beField d 60 62 / 1))]

/-- `HoymilesHmDtu.__ExtractInverterInfo`: checks the trailing CRC16 of the
assembled payload (`responseData[-2:]` against the CRC over the rest), then
dispatches on the channel count; a channel count outside {1, 2, 4} raises. -/
def extractInverterInfo (responseData : List Nat) (numberOfChannels : Nat) :
    Except String (Bool × List (String × InfoValue)) :=
  let crc1 := intFromBytesBE (responseData.drop (responseData.length - 2))
  let crc2 := calculateCrc16 responseData (responseData.length - 2)
  if crc1 ≠ crc2 then .ok (false, [])
  else if numberOfChannels = 1 then .ok (true, extractInverterInfoOneChannel responseData)
  else if numberOfChannels = 2 then .ok (true, extractInverterInfoTwoChannels responseData)
  else if numberOfChannels = 4 then .ok (true, extractInverterInfoFourChannels responseData)
  else .error "Can not extract inverter info. Inverter not supported!"

/-! ## HoymilesHmDtu: the poll pipeline of `QueryInverterInfo`

The radio I/O of one attempt delivers a list of raw frames; the rest of the
attempt is deterministic: `__SendRequestAndScanForResponses` unescapes every
collected frame, `QueryInverterInfo` then evaluates and extracts.  The retry
loop is modelled over the list of per-attempt raw-frame lists.  The `try`
around the loop body has only a `finally` (restoring the power level), so
exceptions propagate out of `QueryInverterInfo`. -/

/-- The `for idx in range(len(responseList))` unescape loop at the end of
`__SendRequestAndScanForResponses`: unescape every collected raw frame,
propagating exceptions. -/
def unescapeAll : List (List Nat) → Except String (List (List Nat))
  | [] => .ok []
  | f :: rest => do
    let u ← unescapeData f
    let us ← unescapeAll rest
    pure (u :: us)

/-- One retry iteration of `HoymilesHmDtu.QueryInverterInfo` after the radio
delivered `rawFrames`: unescape (end of `__SendRequestAndScanForResponses`),
evaluate, extract; `some info` means the iteration returns successfully. -/
def pollAttempt (rawFrames : List (List Nat)) (addr : List Nat) (nCh : Nat) :
    Except String (Option (List (String × InfoValue))) := do
  let responseList ← unescapeAll rawFrames
  let (success, responseData) ← evaluateInverterInfoResponse responseList addr nCh
  if success then do
    let (success2, info) ← extractInverterInfo responseData nCh
    if success2 then pure (some info) else pure none
  else pure none

/-- `HoymilesHmDtu.QueryInverterInfo`'s retry loop over the raw frames each
attempt received: first successful attempt returns `(True, info)`, exhausted
retries return `(False, {})`, exceptions propagate. -/
def queryInverterInfo : List (List (List Nat)) → List Nat → Nat →
    Except String (Bool × List (String × InfoValue))
  | [], _, _ => .ok (false, [])
  | rawFrames :: rest, addr, nCh => do
    match ← pollAttempt rawFrames addr nCh with
    | some info => pure (true, info)
    | none => queryInverterInfo rest addr nCh

/-! ## HoymilesHmDtu: request packet construction -/

/-- `HoymilesHmDtu.__CreatePacketHeader`: 1 command byte, 4 + 4 address
bytes, 1 frame byte; raises on addresses that are not 4 bytes. -/
def createPacketHeader (command : Nat) (receiverAddr senderAddr : List Nat)
    (frame : Nat) : Except String (List Nat) :=
  if receiverAddr.length ≠ 4 then .error "Invalid length of receiver address"
  else if senderAddr.length ≠ 4 then .error "Invalid length of sender address"
  else .ok ([command] ++ receiverAddr ++ senderAddr ++ [frame])

/-- `HoymilesHmDtu.__CreateRequestInfoPayload`: 14 zero-initialized bytes
with subcommand 0x0B, revision 0x00, 4-byte big-endian time, and 0x05 at
index 9. -/
def createRequestInfoPayload (currentTime : Nat) : Except String (List Nat) := do
  let timeBytes ← intToBytesBE currentTime 4
  .ok ([0x0B, 0x00] ++ timeBytes ++ [0x00, 0x00, 0x00, 0x05, 0x00, 0x00, 0x00, 0x00])

/-- `HoymilesHmDtu.__CreateRequestInfoPacket`: header, payload, payload
CRC16 (2 bytes big-endian), packet CRC8 (1 byte); checks the unescaped
length is 27, escapes, checks the escaped length is at most 32. -/
def createRequestInfoPacket (receiverAddr senderAddr : List Nat)
    (currentTime : Nat) : Except String (List Nat) := do
  let header ← createPacketHeader 0x15 receiverAddr senderAddr 0x80
  let payload ← createRequestInfoPayload currentTime
  let payloadChecksum ← intToBytesBE (calculateCrc16 payload payload.length) 2
  let packet1 := header ++ payload ++ payloadChecksum
  let packetChecksum ← intToBytesBE (calculateCrc8 packet1 packet1.length) 1
  let packet := packet1 ++ packetChecksum
  if packet.length ≠ 27 then .error "Internal error CreateRequestInfoPacket: packet size != 27"
  else
    let escaped := escapeData packet
    if escaped.length > 32 then .error "Internal error CreateRequestInfoPacket: packet size > MAX_PACKET_SIZE"
    else .ok escaped

/-- `HoymilesHmDtu.__GetInverterNumberOfChannels`: serial number prefix
lookup; raises on unknown prefixes. -/
def getInverterNumberOfChannels (inverterSerialNumber : List Char) :
    Except String Nat :=
  if inverterSerialNumber.take 2 = ['1', '0'] ∨ inverterSerialNumber.take 2 = ['1', '1'] then
    let s := (inverterSerialNumber.drop 2).take 2
    if s = ['2', '1'] ∨ s = ['2', '2'] ∨ s = ['2', '4'] then .ok 1
    else if s = ['4', '1'] ∨ s = ['4', '2'] ∨ s = ['4', '4'] then .ok 2
    else if s = ['6', '1'] ∨ s = ['6', '2'] ∨ s = ['6', '4'] then .ok 4
    else .error "Inverter type is not supported."
  else .error "Inverter type is not supported."

/-! ## Basic lemmas -/

/-! ## SmlDecoder -/

/-- The `while (tlField & 0x80) != 0` loop of
`SmlDecoder.__DecodeTypeLengthField`.  The loop condition tests `tlField`,
the first TLF byte, which is never reassigned inside the loop; each
iteration advances `pos`, reads `data[pos]` (raising `IndexError` past the
end of the buffer) and accumulates 4 more length bits. -/
def tlfLoop (data : List Nat) (tlField : Nat) (pos tlFieldSize dataLen : Nat) :
    Except String (Nat × Nat) :=
  if tlField &&& 0x80 = 0 then .ok (tlFieldSize, dataLen)
  else if h : pos + 1 < data.length then
    tlfLoop data tlField (pos + 1) (tlFieldSize + 1)
      ((dataLen <<< 4) ||| (data[pos + 1] &&& 0x0F))
  else .error "IndexError"
termination_by data.length - pos
decreasing_by omega

/-- `SmlDecoder.__DecodeTypeLengthField`: returns
`(tlFieldSize, dataType, dataLen)`. -/
def decodeTypeLengthField (data : List Nat) (pos : Nat) :
    Except String (Nat × Nat × Nat) := do
  let tlField ← pyGet data pos
  let dataType := (tlField &&& 0x70) >>> 4
  let (tlFieldSize, dataLen) ← tlfLoop data tlField pos 1 (tlField &&& 0x0F)
  pure (tlFieldSize, dataType, dataLen)

/-- A decoded SML value: byte string, bool, integer (signed and unsigned
decode both produce a Python `int`) or list. -/
inductive SmlValue where
  | str (bs : List Nat)
  | bool (b : Bool)
  | int (i : Int)
  | list (l : List SmlValue)

/-- Python `int.from_bytes(bs, "big", signed=True)` (two's complement;
the empty string gives 0). -/
def intFromBytesBESigned (bs : List Nat) : Int :=
  let n := intFromBytesBE bs
  if 2 * n < 256 ^ bs.length then (n : Int) else (n : Int) - (256 ^ bs.length : Int)

mutual
/-- `SmlDecoder.__DecodeValue`, with explicit recursion fuel (the Python
code recurses on positions in the buffer; any concrete evaluation below
passes enough fuel that the "fuel" branch is never taken).  Returns
`(value, position after the value, end-of-message flag)`. -/
def decodeValue : Nat → List Nat → Nat → Except String (SmlValue × Nat × Bool)
  | 0, _, _ => .error "fuel"
  | fuel + 1, data, pos => do
    let (tlFieldSize, dataType, dataLen) ← decodeTypeLengthField data pos
    let valueStartPos := pos + tlFieldSize
    let valueEndPos := pos + dataLen
    let b ← pyGet data pos
    if b = 0 then
      pure (.int 0, pos + 1, true)
    else if dataType = 0 ∧ 1 ≤ dataLen then
      pure (.str (pySlice data valueStartPos valueEndPos), valueEndPos, false)
    else if dataType = 4 ∧ dataLen = 2 then do
      let v ← pyGet data valueStartPos
      pure (.bool (decide (v ≠ 0)), valueEndPos, false)
    else if dataType = 5 ∧ 2 ≤ dataLen ∧ dataLen ≤ 9 then
      pure (.int (intFromBytesBESigned (pySlice data valueStartPos valueEndPos)),
        valueEndPos, false)
    else if dataType = 6 ∧ 2 ≤ dataLen ∧ dataLen ≤ 9 then
      pure (.int (intFromBytesBE (pySlice data valueStartPos valueEndPos)),
        valueEndPos, false)
    else if dataType = 7 then do
      let (items, endPos, endOfMsg) ←
        decodeListLoop fuel data dataLen valueStartPos valueEndPos false []
      pure (.list items, endPos, endOfMsg)
    else
      .error "Unknown data type"
termination_by fuel _ _ => (fuel, 0)

/-- The `for _ in range(dataLen)` loop of the list branch of
`SmlDecoder.__DecodeValue`: decodes `count` child values in sequence; a
child that is the end-of-message sentinel is not appended, but the loop
keeps running for the remaining children. -/
def decodeListLoop : Nat → List Nat → Nat → Nat → Nat → Bool → List SmlValue →
    Except String (List SmlValue × Nat × Bool)
  | _, _, 0, _, valueEndPos, endOfMsg, acc => .ok (acc, valueEndPos, endOfMsg)
  | fuel, data, count + 1, valueStartPos, _, _, acc => do
    let (listItem, valueEndPos, endOfMsg) ← decodeValue fuel data valueStartPos
    decodeListLoop fuel data count valueEndPos valueEndPos endOfMsg
      (if endOfMsg then acc else acc ++ [listItem])
termination_by fuel _ count _ _ _ _ => (fuel, count + 1)
end

/-! ## EbzDD3: meter info extraction -/

/-- Python dict assignment `info[name] = value` on an insertion-ordered
association list: updates an existing key in place, otherwise appends. -/
def dictSet (d : List (String × ℚ)) (k : String) (v : ℚ) : List (String × ℚ) :=
  if d.any (fun p => p.1 = k) then d.map (fun p => if p.1 = k then (k, v) else p)
  else d ++ [(k, v)]

/-- Python indexing `v[i]` on a decoded SML value: lists index their
children, byte strings yield the byte as an int, anything else raises
`TypeError`. -/
def smlIndex (v : SmlValue) (i : Nat) : Except String SmlValue :=
  match v with
  | .list l =>
    match l[i]? with
    | some x => .ok x
    | none => .error "IndexError"
  | .str s =>
    match s[i]? with
    | some b => .ok (.int b)
    | none => .error "IndexError"
  | _ => .error "TypeError"

/-- Python `value / divisor` for a decoded SML value: ints divide, bools
are ints in Python and divide too; byte strings and lists raise
`TypeError`. -/
def smlDiv (v : SmlValue) (divisor : ℚ) : Except String ℚ :=
  match v with
  | .int i => .ok ((i : ℚ) / divisor)
  | .bool b => .ok ((if b then 1 else 0) / divisor)
  | _ => .error "TypeError"

/-- `EbzDD3.__ExtractInfoFromDataSet`: reads the identifier (field 0) and
value (field 5) of one data set and matches the identifier against the 8
known OBIS ids; value scaled by 1E8 for meter readings and by 1E2 for
instantaneous powers; unknown ids give `(None, None)`. -/
def extractInfoFromDataSet (dataSet : SmlValue) :
    Except String (Option (String × ℚ)) := do
  let id ← smlIndex dataSet 0
  let value ← smlIndex dataSet 5
  match id with
  | .str s =>
    if s = [0x01, 0x00, 0x01, 0x08, 0x00, 0xFF] then do
      let q ← smlDiv value 100000000
      pure (some ("+A", q))
    else if s = [0x01, 0x00, 0x01, 0x08, 0x01, 0xFF] then do
      let q ← smlDiv value 100000000
      pure (some ("+A T1", q))
    else if s = [0x01, 0x00, 0x01, 0x08, 0x02, 0xFF] then do
      let q ← smlDiv value 100000000
      pure (some ("+A T2", q))
    else if s = [0x01, 0x00, 0x02, 0x08, 0x00, 0xFF] then do
      let q ← smlDiv value 100000000
      pure (some ("-A", q))
    else if s = [0x01, 0x00, 0x10, 0x07, 0x00, 0xFF] then do
      let q ← smlDiv value 100
      pure (some ("P", q))
    else if s = [0x01, 0x00, 0x24, 0x07, 0x00, 0xFF] then do
      let q ← smlDiv value 100
      pure (some ("P L1", q))
    else if s = [0x01, 0x00, 0x38, 0x07, 0x00, 0xFF] then do
      let q ← smlDiv value 100
      pure (some ("P L2", q))
    else if s = [0x01, 0x00, 0x4C, 0x07, 0x00, 0xFF] then do
      let q ← smlDiv value 100
      pure (some ("P L3", q))
    else
      pure none
  | _ => pure none

/-- The `for dataSet in dataSetList` loop of `EbzDD3.__ExtractInfoFromData`:
collects named readings into the info dict, skipping data sets whose
extraction gave `(None, None)`. -/
def extractInfoLoop : List SmlValue → List (String × ℚ) →
    Except String (List (String × ℚ))
  | [], info => .ok info
  | ds :: rest, info => do
    match ← extractInfoFromDataSet ds with
    | some (name, value) => extractInfoLoop rest (dictSet info name value)
    | none => extractInfoLoop rest info

/-- The OBIS identifier table of the specification (§4.7): 8 entries with
scale divisor 1e8 for cumulative energy and 1e2 for instantaneous power.
Written from the spec's words, to be compared with
`extractInfoFromDataSet`. -/
def obisLookup (id : List Nat) : Option (String × ℚ) :=
  if id = [0x01, 0x00, 0x01, 0x08, 0x00, 0xFF] then some ("+A", 100000000)
  else if id = [0x01, 0x00, 0x01, 0x08, 0x01, 0xFF] then some ("+A T1", 100000000)
  else if id = [0x01, 0x00, 0x01, 0x08, 0x02, 0xFF] then some ("+A T2", 100000000)
  else if id = [0x01, 0x00, 0x02, 0x08, 0x00, 0xFF] then some ("-A", 100000000)
  else if id = [0x01, 0x00, 0x10, 0x07, 0x00, 0xFF] then some ("P", 100)
  else if id = [0x01, 0x00, 0x24, 0x07, 0x00, 0xFF] then some ("P L1", 100)
  else if id = [0x01, 0x00, 0x38, 0x07, 0x00, 0xFF] then some ("P L2", 100)
  else if id = [0x01, 0x00, 0x4C, 0x07, 0x00, 0xFF] then some ("P L3", 100)
  else none

/-- The validity condition `__EvaluateInverterInfoResponse` imposes on the
frame at index `idx`: correct frame-number byte, both address fields equal
the inverter address, and the trailing CRC8 checks out. -/
def frameValid (addr : List Nat) (numberOfResponses idx : Nat) (r : List Nat) : Prop :=
  r[9]? = some (expectedFrameNumber numberOfResponses idx) ∧
  pySlice r 1 5 = addr ∧ pySlice r 5 9 = addr ∧
  checkChecksum r = .ok true

/-! ## Lemmas -/

@[simp] theorem exceptPure {α : Type} (a : α) :
    (pure a : Except String α) = .ok a := rfl

@[simp] theorem exceptBind_ok {α β : Type} (a : α) (f : α → Except String β) :
    (Except.ok a >>= f : Except String β) = f a := rfl

@[simp] theorem exceptBind_error {α β : Type} (e : String) (f : α → Except String β) :
    (Except.error e >>= f : Except String β) = .error e := rfl

/-- Unfolding the validation loop: it returns `(True, assembled)` exactly
when every remaining frame is valid, and the assembled data is the
accumulator followed by the stripped payloads in order. -/
theorem evalLoop_true_iff (addr : List Nat) (numberOfResponses : Nat)
    (rs : List (List Nat)) :
    ∀ (idx : Nat) (acc d : List Nat),
      evalLoop addr numberOfResponses idx rs acc = .ok (true, d) ↔
        ((∀ i r, rs[i]? = some r → frameValid addr numberOfResponses (idx + i) r) ∧
         d = acc ++ (rs.map stripFrame).flatten) := by
  induction rs with
  | nil =>
    intro idx acc d
    simp [evalLoop]
    exact eq_comm
  | cons r rest ih =>
    intro idx acc d
    have hstep : evalLoop addr numberOfResponses idx (r :: rest) acc =
        (pyGet r 9) >>= fun frameNumberResponse =>
          if frameNumberResponse ≠ expectedFrameNumber numberOfResponses idx then
            .ok (false, acc)
          else if pySlice r 1 5 ≠ addr ∨ pySlice r 5 9 ≠ addr then
            .ok (false, acc)
          else (checkChecksum r) >>= fun ok =>
            if ok then evalLoop addr numberOfResponses (idx + 1) rest (acc ++ stripFrame r)
            else .ok (false, acc) := rfl
    cases h9 : r[9]? with
    | none =>
      rw [hstep]
      simp only [pyGet, h9, exceptBind_error]
      apply iff_of_false
      · intro h; exact Except.noConfusion h
      · rintro ⟨hall, -⟩
        have h := (hall 0 r (by simp)).1
        rw [h9] at h
        exact Option.noConfusion h
    | some fn =>
      rw [hstep]
      rw [show pyGet r 9 = .ok fn from by simp [pyGet, h9], exceptBind_ok]
      by_cases hfn : fn = expectedFrameNumber numberOfResponses idx
      · rw [if_neg (by simp [hfn])]
        by_cases haddr : pySlice r 1 5 = addr ∧ pySlice r 5 9 = addr
        · rw [if_neg (by simp [haddr.1, haddr.2])]
          have hne : r ≠ [] := by
            intro h
            rw [h] at h9
            exact Option.noConfusion h9
          obtain ⟨last, hlast⟩ : ∃ l, r.getLast? = some l := by
            cases hgl : r.getLast? with
            | none => exact absurd (List.getLast?_eq_none_iff.mp hgl) hne
            | some l => exact ⟨l, rfl⟩
          have hcc : checkChecksum r =
              .ok (decide (calculateCrc8 r (r.length - 1) = last)) := by
            simp [checkChecksum, pyLast, hlast]
          rw [hcc, exceptBind_ok]
          by_cases hcrc : calculateCrc8 r (r.length - 1) = last
          · rw [if_pos (by simp [hcrc])]
            rw [ih (idx + 1) (acc ++ stripFrame r) d]
            constructor
            · rintro ⟨hall', rfl⟩
              refine ⟨?_, by simp⟩
              intro i r' hi
              cases i with
              | zero =>
                simp only [List.getElem?_cons_zero, Option.some.injEq] at hi
                subst hi
                refine ⟨by rw [Nat.add_zero, h9, hfn], haddr.1, haddr.2, ?_⟩
                rw [hcc, hcrc]
                simp
              | succ j =>
                simp only [List.getElem?_cons_succ] at hi
                have h := hall' j r' hi
                have : idx + (j + 1) = idx + 1 + j := by omega
                rw [this]
                exact h
            · rintro ⟨hall, rfl⟩
              refine ⟨?_, by simp⟩
              intro i r' hi
              have h := hall (i + 1) r' (by simpa using hi)
              have : idx + 1 + i = idx + (i + 1) := by omega
              rw [this]
              exact h
          · rw [if_neg (by simp [hcrc])]
            apply iff_of_false
            · intro h
              simp at h
            · rintro ⟨hall, -⟩
              have h := (hall 0 r (by simp)).2.2.2
              rw [hcc] at h
              simp [hcrc] at h
        · rw [if_pos (by tauto)]
          apply iff_of_false
          · intro h
            simp at h
          · rintro ⟨hall, -⟩
            exact haddr ⟨(hall 0 r (by simp)).2.1, (hall 0 r (by simp)).2.2.1⟩
      · rw [if_pos (by simp [hfn])]
        apply iff_of_false
        · intro h
          simp at h
        · rintro ⟨hall, -⟩
          have h := (hall 0 r (by simp)).1
          rw [h9] at h
          exact hfn (Option.some_inj.mp h)

/-- If every frame in the list is at least 10 bytes long, the validation
loop never raises: it always returns a `(flag, data)` pair. -/
theorem evalLoop_ok_of_long (addr : List Nat) (numberOfResponses : Nat) :
    ∀ (rs : List (List Nat)) (idx : Nat) (acc : List Nat),
      (∀ r ∈ rs, 10 ≤ r.length) →
      ∃ b d, evalLoop addr numberOfResponses idx rs acc = .ok (b, d) := by
  intro rs
  induction rs with
  | nil => exact fun idx acc _ => ⟨true, acc, rfl⟩
  | cons r rest ih =>
    intro idx acc hlen
    have h10 : 10 ≤ r.length := hlen r (by simp)
    have h9 : r[9]? = some (r.get ⟨9, by omega⟩) := by
      rw [List.getElem?_eq_getElem (by omega)]
      simp
    have hstep : evalLoop addr numberOfResponses idx (r :: rest) acc =
        (pyGet r 9) >>= fun frameNumberResponse =>
          if frameNumberResponse ≠ expectedFrameNumber numberOfResponses idx then
            .ok (false, acc)
          else if pySlice r 1 5 ≠ addr ∨ pySlice r 5 9 ≠ addr then
            .ok (false, acc)
          else (checkChecksum r) >>= fun ok =>
            if ok then evalLoop addr numberOfResponses (idx + 1) rest (acc ++ stripFrame r)
            else .ok (false, acc) := rfl
    rw [hstep, show pyGet r 9 = .ok (r.get ⟨9, by omega⟩) from by simp [pyGet, h9],
      exceptBind_ok]
    by_cases hfn : r.get ⟨9, by omega⟩ ≠ expectedFrameNumber numberOfResponses idx
    · rw [if_pos hfn]
      exact ⟨false, acc, rfl⟩
    · rw [if_neg hfn]
      by_cases haddr : pySlice r 1 5 ≠ addr ∨ pySlice r 5 9 ≠ addr
      · rw [if_pos haddr]
        exact ⟨false, acc, rfl⟩
      · rw [if_neg haddr]
        have hne : r ≠ [] := by
          intro h
          rw [h] at h10
          simp at h10
        obtain ⟨last, hlast⟩ : ∃ l, r.getLast? = some l := by
          cases hgl : r.getLast? with
          | none => exact absurd (List.getLast?_eq_none_iff.mp hgl) hne
          | some l => exact ⟨l, rfl⟩
        rw [show checkChecksum r = .ok (decide (calculateCrc8 r (r.length - 1) = last)) from
          by simp [checkChecksum, pyLast, hlast], exceptBind_ok]
        by_cases hcrc : calculateCrc8 r (r.length - 1) = last
        · rw [if_pos (by simp [hcrc])]
          exact ih (idx + 1) (acc ++ stripFrame r) (fun r' hr' => hlen r' (by simp [hr']))
        · rw [if_neg (by simp [hcrc])]
          exact ⟨false, acc, rfl⟩

/-- If every frame is at least 10 bytes long, `__EvaluateInverterInfoResponse`
never raises. -/
theorem evaluate_ok_of_long (rs : List (List Nat)) (addr : List Nat) (n : Nat)
    (h : ∀ r ∈ rs, 10 ≤ r.length) :
    ∃ b d, evaluateInverterInfoResponse rs addr n = .ok (b, d) := by
  simp only [evaluateInverterInfoResponse]
  by_cases hlen : rs.length ≠ n + 1
  · rw [if_pos hlen]
    exact ⟨false, [], rfl⟩
  · rw [if_neg hlen]
    exact evalLoop_ok_of_long addr (n + 1) rs 0 [] h

/-- Unescaping a whole frame list succeeds when every frame unescapes,
and the results keep any property of the individual results. -/
theorem mapM_unescape_ok (fs : List (List Nat)) (P : List Nat → Prop)
    (h : ∀ f ∈ fs, ∃ u, unescapeData f = .ok u ∧ P u) :
    ∃ us, unescapeAll fs = .ok us ∧ ∀ u ∈ us, P u := by
  induction fs with
  | nil => exact ⟨[], rfl, by simp⟩
  | cons f rest ih =>
    obtain ⟨u, hu, hP⟩ := h f (by simp)
    obtain ⟨us, hus, hPs⟩ := ih (fun f' hf' => h f' (by simp [hf']))
    refine ⟨u :: us, ?_, ?_⟩
    · simp only [unescapeAll]
      rw [hu, exceptBind_ok, hus, exceptBind_ok]
      rfl
    · intro u' hu'
      rcases List.mem_cons.mp hu' with rfl | hmem
      · exact hP
      · exact hPs u' hmem

/-- `__ExtractInverterInfo` never raises for channel counts 1, 2 and 4,
and returns no data exactly when the payload CRC16 fails. -/
theorem extract_ok_of_channels (d : List Nat) (n : Nat) (hn : n = 1 ∨ n = 2 ∨ n = 4) :
    ∃ b info, extractInverterInfo d n = .ok (b, info) ∧ (b = false → info = []) := by
  simp only [extractInverterInfo]
  by_cases hcrc : intFromBytesBE (d.drop (d.length - 2)) ≠ calculateCrc16 d (d.length - 2)
  · rw [if_pos hcrc]
    exact ⟨false, [], rfl, fun _ => rfl⟩
  · rw [if_neg hcrc]
    rcases hn with rfl | rfl | rfl
    · exact ⟨true, extractInverterInfoOneChannel d, by norm_num, by simp⟩
    · exact ⟨true, extractInverterInfoTwoChannels d, by norm_num, by simp⟩
    · exact ⟨true, extractInverterInfoFourChannels d, by norm_num, by simp⟩

/-- One retry iteration never raises when all frames unescape to at least
10 bytes and the channel count is a constructible one. -/
theorem pollAttempt_ok (fs : List (List Nat)) (addr : List Nat) (n : Nat)
    (hf : ∀ f ∈ fs, ∃ u, unescapeData f = .ok u ∧ 10 ≤ u.length)
    (hn : n = 1 ∨ n = 2 ∨ n = 4) :
    ∃ r, pollAttempt fs addr n = .ok r := by
  obtain ⟨us, hus, hlen⟩ := mapM_unescape_ok fs _ hf
  obtain ⟨b, d, hbd⟩ := evaluate_ok_of_long us addr n hlen
  simp only [pollAttempt]
  rw [hus, exceptBind_ok, hbd, exceptBind_ok]
  cases b with
  | false => exact ⟨none, rfl⟩
  | true =>
    obtain ⟨b2, info, hb2, -⟩ := extract_ok_of_channels d n hn
    cases b2 with
    | false =>
      refine ⟨none, ?_⟩
      rw [hb2]
      rfl
    | true =>
      refine ⟨some info, ?_⟩
      rw [hb2]
      rfl

/-- `natToBytesBE` always produces exactly `len` bytes. -/
theorem natToBytesBE_length (v len : Nat) : (natToBytesBE v len).length = len := by
  induction len generalizing v with
  | zero => rfl
  | succ k ih => simp [natToBytesBE, ih]

/-- `natToBytesBE` always produces bytes below 256. -/
theorem natToBytesBE_lt (v len : Nat) : ∀ x ∈ natToBytesBE v len, x < 256 := by
  induction len generalizing v with
  | zero => simp [natToBytesBE]
  | succ k ih =>
    intro x hx
    simp only [natToBytesBE, List.mem_append, List.mem_singleton] at hx
    rcases hx with h | h
    · exact ih _ x h
    · subst h
      exact Nat.mod_lt _ (by norm_num)

/-- The CRC16 bit rounds keep the register within 16 bits. -/
theorem crc16Bits_lt (k crc : Nat) (h : crc < 65536) : crc16Bits k crc < 65536 := by
  induction k generalizing crc with
  | zero => simpa [crc16Bits] using h
  | succ k ih =>
    rw [show crc16Bits (k + 1) crc =
      crc16Bits k (if crc &&& 1 ≠ 0 then (crc >>> 1) ^^^ 0xA001 else crc >>> 1) from rfl]
    apply ih
    have hs : crc >>> 1 < 65536 := by
      rw [Nat.shiftRight_one]
      exact lt_of_le_of_lt (Nat.div_le_self _ _) h
    split
    · have := Nat.xor_lt_two_pow (n := 16) hs (by norm_num : (0xA001 : Nat) < 2 ^ 16)
      simpa using this
    · exact hs

/-- One CRC16 byte step keeps the register within 16 bits. -/
theorem crc16Byte_lt (crc x : Nat) (hc : crc < 65536) (hx : x < 256) :
    crc16Byte crc x < 65536 := by
  apply crc16Bits_lt
  have := Nat.xor_lt_two_pow (n := 16) hc (lt_trans hx (by norm_num))
  simpa using this

/-- The CRC16 over any list of bytes fits in 16 bits. -/
theorem calculateCrc16_lt (data : List Nat) (dataLen : Nat)
    (h : ∀ x ∈ data, x < 256) : calculateCrc16 data dataLen < 65536 := by
  have aux : ∀ (l : List Nat) (init : Nat), init < 65536 → (∀ x ∈ l, x < 256) →
      l.foldl crc16Byte init < 65536 := by
    intro l
    induction l with
    | nil => exact fun init hi _ => hi
    | cons x rest ih =>
      intro init hi hl
      exact ih _ (crc16Byte_lt init x hi (hl x (by simp)))
        (fun y hy => hl y (by simp [hy]))
  exact aux _ 0xFFFF (by norm_num)
    (fun x hx => h x (List.mem_of_mem_take hx))

/-- After at least one round, the CRC8 register is a masked byte. -/
theorem crc8Bits_lt (k crc : Nat) : crc8Bits (k + 1) crc < 256 := by
  induction k generalizing crc with
  | zero =>
    show crc8Bits 1 crc < 256
    have h := Nat.and_le_right
      (n := if (crc * 2) &&& 0x100 ≠ 0 then (crc * 2) ^^^ 0x01 else crc * 2) (m := 0xFF)
    have heq : crc8Bits 1 crc =
        (if (crc * 2) &&& 0x100 ≠ 0 then (crc * 2) ^^^ 0x01 else crc * 2) &&& 0xFF := rfl
    omega
  | succ k ih =>
    rw [crc8Bits.eq_2]
    exact ih _

/-- One CRC8 byte step yields a byte. -/
theorem crc8Byte_lt (crc x : Nat) : crc8Byte crc x < 256 := by
  have h := crc8Bits_lt 7 (crc ^^^ x)
  rw [show (7 : Nat) + 1 = 8 from rfl] at h
  exact h

/-- The CRC8 over at least one byte is a byte. -/
theorem calculateCrc8_lt (data : List Nat) (dataLen : Nat)
    (h1 : 1 ≤ dataLen) (h2 : 1 ≤ data.length) : calculateCrc8 data dataLen < 256 := by
  have aux : ∀ (l : List Nat) (init : Nat), l ≠ [] → l.foldl crc8Byte init < 256 := by
    intro l
    induction l with
    | nil => exact fun init h => absurd rfl h
    | cons x rest ih =>
      intro init _
      rw [List.foldl_cons]
      cases rest with
      | nil => rw [List.foldl_nil]; exact crc8Byte_lt init x
      | cons y tl => exact ih _ (by simp)
  simp only [calculateCrc8]
  apply aux
  have hlen : (data.take dataLen).length = min dataLen data.length := List.length_take _ _
  intro hnil
  rw [hnil] at hlen
  simp at hlen
  omega

/-- A list of length 4 is a four-element literal. -/
theorem length_eq_four {l : List Nat} (h : l.length = 4) :
    ∃ a b c d, l = [a, b, c, d] := by
  obtain ⟨a, l1, rfl⟩ := List.exists_of_length_succ l (show l.length = 3 + 1 by omega)
  simp only [List.length_cons] at h
  obtain ⟨b, c, d, rfl⟩ := List.length_eq_three.mp (show l1.length = 3 by omega)
  exact ⟨a, b, c, d, rfl⟩

/-- The validation loop raises `IndexError` when the first remaining frame
is shorter than 10 bytes (the frame-number read at offset 9 is out of
range). -/
theorem evalLoop_cons_short (addr : List Nat) (numberOfResponses idx : Nat)
    (r : List Nat) (rest : List (List Nat)) (acc : List Nat)
    (hshort : r.length < 10) :
    evalLoop addr numberOfResponses idx (r :: rest) acc = .error "IndexError" := by
  have h9 : r[9]? = none := List.getElem?_eq_none (by omega)
  simp [evalLoop, pyGet, h9]

end MyEM

open MyEM

/-- C6: for every byte sequence `x`, `Unescape(Escape(x)) = x`, and escaping
never shrinks the length. -/
theorem c6_escape_unescape_roundtrip (x : List Nat) :
    unescapeData (escapeData x) = .ok x ∧ x.length ≤ (escapeData x).length := by
  constructor
  · induction x with
    | nil => rfl
    | cons b rest ih =>
      by_cases h7d : b = 0x7D
      · simp [escapeData, unescapeData, unescapeSpecial, h7d, ih]
      · by_cases h7e : b = 0x7E
        · simp [escapeData, unescapeData, unescapeSpecial, h7d, h7e, ih]
        · by_cases h7f : b = 0x7F
          · simp [escapeData, unescapeData, unescapeSpecial, h7d, h7e, h7f, ih]
          · simp [escapeData, unescapeData, h7d, h7e, h7f, ih]
  · induction x with
    | nil => simp [escapeData]
    | cons b rest ih =>
      simp only [escapeData, List.length_cons, List.length_append]
      have h1 : 1 ≤ (if b = 0x7D then [0x7D, 0x5D]
          else if b = 0x7E then [0x7D, 0x5E]
          else if b = 0x7F then [0x7D, 0x5F]
          else [b]).length := by
        split
        · simp
        · split
          · simp
          · split <;> simp
      omega


/-- C1, corrected: as long as every collected frame unescapes successfully
to at least 10 bytes and the channel count is one of the constructible ones
(1, 2 or 4), `QueryInverterInfo` indeed returns only success-with-data or
failure-with-empty-dict; but a frame with an invalid escape sequence makes
the unescape step raise, and the exception propagates out of
`QueryInverterInfo` (its `try` has only a `finally`), see the
counterexample. -/
theorem c1_query_outcomes (frameSets : List (List (List Nat))) (addr : List Nat) (n : Nat)
    (hframes : ∀ fs ∈ frameSets, ∀ f ∈ fs, ∃ u, unescapeData f = .ok u ∧ 10 ≤ u.length)
    (hn : n = 1 ∨ n = 2 ∨ n = 4) :
    ∃ b info, queryInverterInfo frameSets addr n = .ok (b, info) ∧
      (b = false → info = []) := by
  revert hframes
  induction frameSets with
  | nil => exact fun _ => ⟨false, [], rfl, fun _ => rfl⟩
  | cons fs rest ih =>
    intro hframes
    obtain ⟨r, hr⟩ := pollAttempt_ok fs addr n (hframes fs (by simp)) hn
    simp only [queryInverterInfo]
    rw [hr, exceptBind_ok]
    cases r with
    | some info => exact ⟨true, info, rfl, by simp⟩
    | none => exact ih (fun fs' h' => hframes fs' (by simp [h']))

/-- C1 witness: a poll attempt that received no frames returns cleanly. -/
theorem c1_query_outcomes_witness :
    ∃ b info, queryInverterInfo [[]] [1, 2, 3, 4] 1 = .ok (b, info) ∧
      (b = false → info = []) :=
  c1_query_outcomes [[]] [1, 2, 3, 4] 1 (by simp) (Or.inl rfl)

/-- C1 counterexample: a collected frame containing the invalid escape
sequence 0x7D 0x00 makes `QueryInverterInfo` raise the unescape exception
instead of returning failure-with-no-data. -/
theorem c1_counterexample :
    queryInverterInfo [[[0x7D, 0x00]]] [1, 2, 3, 4] 1 =
      .error "UnescapeData(): Invalid data, can not decode." := rfl

/-- C2, corrected: response-set evaluation returns `(True, data)` exactly
when the list has N+1 frames, every frame carries the expected frame-number
byte (1..N+1 ascending, 0x80 ORed onto the last), both address fields and
the trailing CRC8 check out, and `data` is the concatenation of the
stripped payloads in order; a wrong frame count yields `(False, b'')`.  (A
frame-level mismatch after some valid frames yields `False` together with
the partial buffer accumulated so far, not an empty one — see the
counterexample.) -/
theorem c2_response_set_evaluation :
    (∀ (rs : List (List Nat)) (addr : List Nat) (n : Nat) (d : List Nat),
        evaluateInverterInfoResponse rs addr n = .ok (true, d) ↔
          (rs.length = n + 1 ∧
           (∀ i r, rs[i]? = some r → frameValid addr (n + 1) i r) ∧
           d = (rs.map stripFrame).flatten)) ∧
    (∀ (rs : List (List Nat)) (addr : List Nat) (n : Nat),
        rs.length ≠ n + 1 →
        evaluateInverterInfoResponse rs addr n = .ok (false, [])) := by
  constructor
  · intro rs addr n d
    simp only [evaluateInverterInfoResponse]
    by_cases hlen : rs.length = n + 1
    · rw [if_neg (by omega)]
      rw [evalLoop_true_iff addr (n + 1) rs 0 [] d]
      simp [hlen]
    · rw [if_pos (by omega)]
      apply iff_of_false
      · intro h
        simp at h
      · rintro ⟨h, -⟩
        exact hlen h
  · intro rs addr n h
    simp only [evaluateInverterInfoResponse]
    rw [if_pos h]

/-- C2 witness: a response set with the wrong frame count (the spec's
frames-1-and-3-of-3 scenario has count 2 instead of 3) is Incomplete with
empty data. -/
theorem c2_response_set_evaluation_witness :
    evaluateInverterInfoResponse [[], []] [1, 2, 3, 4] 2 = .ok (false, []) :=
  c2_response_set_evaluation.2 [[], []] [1, 2, 3, 4] 2 (by simp)

/-- C2 counterexample: with the right frame count, a first frame that is
fully valid followed by a mis-numbered second frame yields `False` paired
with the first frame's payload — partial data, not an empty buffer. -/
theorem c2_counterexample :
    evaluateInverterInfoResponse
        [[0x00, 1, 2, 3, 4, 1, 2, 3, 4, 0x01, 0xAA, 0xAB],
         [0x00, 1, 2, 3, 4, 1, 2, 3, 4, 0x83, 0x00, 0x00],
         []] [1, 2, 3, 4] 2 = .ok (false, [0xAA]) ∧
    ([0xAA] : List Nat) ≠ [] := ⟨rfl, by simp⟩

/-- C5, corrected: for a CRC16-valid reassembled payload of a 4-channel
inverter the extraction does NOT fail: it returns success together with the
readings computed by the (internally inconsistent) 4-channel offset table;
only channel counts outside {1, 2, 4} raise. -/
theorem c5_four_channel_extracts (d : List Nat)
    (h : intFromBytesBE (d.drop (d.length - 2)) = calculateCrc16 d (d.length - 2)) :
    extractInverterInfo d 4 = .ok (true, extractInverterInfoFourChannels d) := by
  simp only [extractInverterInfo]
  rw [if_neg (by omega)]
  norm_num

/-- C5 witness: a concrete CRC16-valid payload. -/
theorem c5_four_channel_extracts_witness :
    extractInverterInfo [0x00, 0x00, 0xB0, 0x01] 4 =
      .ok (true, extractInverterInfoFourChannels [0x00, 0x00, 0xB0, 0x01]) :=
  c5_four_channel_extracts [0x00, 0x00, 0xB0, 0x01] (by decide)

/-- C5 counterexample: on a concrete CRC16-valid payload the 4-channel
extraction reports success and returns a non-empty reading map (9 entries),
contradicting the claim that it fails with no data. -/
theorem c5_counterexample :
    extractInverterInfo [0x00, 0x00, 0xB0, 0x01] 4 =
      .ok (true, extractInverterInfoFourChannels [0x00, 0x00, 0xB0, 0x01]) ∧
    (extractInverterInfoFourChannels [0x00, 0x00, 0xB0, 0x01]).length = 9 := ⟨rfl, rfl⟩

/-- C8, corrected: `__EvaluateInverterInfoResponse` performs no length
check.  Frames of unescaped length at least 10 are processed without any
out-of-range access (first conjunct), but a frame shorter than 10 bytes
makes the frame-number read at offset 9 raise `IndexError` instead of the
response set being classified Incomplete (second conjunct). -/
theorem c8_no_length_check :
    (∀ (rs : List (List Nat)) (addr : List Nat) (n : Nat),
        (∀ r ∈ rs, 10 ≤ r.length) →
        ∃ b d, evaluateInverterInfoResponse rs addr n = .ok (b, d)) ∧
    (∀ (r : List Nat) (rest : List (List Nat)) (addr : List Nat) (n : Nat),
        (r :: rest).length = n + 1 → r.length < 10 →
        evaluateInverterInfoResponse (r :: rest) addr n = .error "IndexError") := by
  constructor
  · exact fun rs addr n h => evaluate_ok_of_long rs addr n h
  · intro r rest addr n hlen hshort
    simp only [evaluateInverterInfoResponse]
    rw [if_neg (by omega)]
    exact evalLoop_cons_short addr (n + 1) 0 r rest [] hshort

/-- C8 witness: both conjuncts at concrete inputs: a single 10-byte frame
set never errors, and a single empty frame raises `IndexError`. -/
theorem c8_no_length_check_witness :
    (∃ b d, evaluateInverterInfoResponse
        [[0, 0, 0, 0, 0, 0, 0, 0, 0, 0]] [1, 2, 3, 4] 0 = .ok (b, d)) ∧
    evaluateInverterInfoResponse [[]] [1, 2, 3, 4] 0 = .error "IndexError" :=
  ⟨c8_no_length_check.1 [[0, 0, 0, 0, 0, 0, 0, 0, 0, 0]] [1, 2, 3, 4] 0 (by simp),
   c8_no_length_check.2 [] [] [1, 2, 3, 4] 0 (by simp) (by simp)⟩

/-- C8 counterexample: a frame shorter than 11 bytes (here: empty) is not
rejected as invalid; evaluation raises an out-of-range `IndexError`. -/
theorem c8_counterexample :
    evaluateInverterInfoResponse [[]] [1, 2, 3, 4] 0 = .error "IndexError" := rfl

/-- C10, confirmed: whenever the serial-number lookup of the constructor
succeeds, the stored channel count is 1, 2 or 4, and for such counts the
unsupported-channel-count branch of `__ExtractInverterInfo` is unreachable:
extraction always returns a `(flag, info)` pair, never that exception. -/
theorem c10_constructed_channel_counts (serial : List Char) (n : Nat)
    (h : getInverterNumberOfChannels serial = .ok n) :
    (n = 1 ∨ n = 2 ∨ n = 4) ∧
    ∀ d : List Nat, ∃ b info, extractInverterInfo d n = .ok (b, info) := by
  have hn : n = 1 ∨ n = 2 ∨ n = 4 := by
    simp only [getInverterNumberOfChannels] at h
    split_ifs at h <;> simp_all
  refine ⟨hn, fun d => ?_⟩
  obtain ⟨b, info, hbi, -⟩ := extract_ok_of_channels d n hn
  exact ⟨b, info, hbi⟩

/-- C10 witness: serial prefix 11, family digits 21: a 1-channel inverter. -/
theorem c10_constructed_channel_counts_witness :
    getInverterNumberOfChannels ['1', '1', '2', '1'] = .ok 1 ∧
    ((1 : Nat) = 1 ∨ (1 : Nat) = 2 ∨ (1 : Nat) = 4) :=
  ⟨rfl, (c10_constructed_channel_counts ['1', '1', '2', '1'] 1 rfl).1⟩

/-- C3, code bug: the TLF decoder's `while (tlField & 0x80) != 0` loop
never reassigns `tlField`, so on a first TLF byte with bit 0x80 set it
consumes bytes until it runs off the end of the buffer and raises
`IndexError`.  On the 2-byte TLF `81 01` (second byte with bit 0x80 clear)
the claimed behaviour would be to stop after exactly 2 bytes and return
`(2, 0, 0x11)`; the code raises instead. -/
theorem c3_tlf_runs_off_buffer :
    decodeTypeLengthField [0x81, 0x01] 0 = .error "IndexError" ∧
    decodeTypeLengthField [0x81, 0x01] 0 ≠ .ok (2, 0, 0x11) := by
  have h : decodeTypeLengthField [0x81, 0x01] 0 = .error "IndexError" := by
    simp +decide [decodeTypeLengthField, pyGet, tlfLoop]
  refine ⟨h, ?_⟩
  rw [h]
  simp

/-- C4, corrected: a sentinel child contributes no element, but list
decoding does not stop early: after decoding a sentinel (end-of-message,
third component `true`) at some child position, the loop continues with the
remaining declared children from the position after the sentinel, with the
accumulator unchanged. -/
theorem c4_sentinel_skipped_but_loop_continues (fuel : Nat) (data : List Nat)
    (count startPos endPos : Nat) (eom : Bool) (acc : List SmlValue)
    (v : SmlValue) (e : Nat)
    (h : decodeValue fuel data startPos = .ok (v, e, true)) :
    decodeListLoop fuel data (count + 1) startPos endPos eom acc =
      decodeListLoop fuel data count e e true acc := by
  simp [decodeListLoop, h]

/-- C4 witness: in the buffer `72 00 52 05` the outer list declares 2
children and the first child (position 1) is the sentinel: the loop step
for it leaves the accumulator empty but continues with the second declared
child. -/
theorem c4_sentinel_skipped_but_loop_continues_witness :
    decodeListLoop 4 [0x72, 0x00, 0x52, 0x05] 2 1 2 false [] =
      decodeListLoop 4 [0x72, 0x00, 0x52, 0x05] 1 2 2 true [] :=
  c4_sentinel_skipped_but_loop_continues 4 [0x72, 0x00, 0x52, 0x05] 1 1 2 false []
    (.int 0) 2 (by simp +decide [decodeValue, decodeTypeLengthField, tlfLoop, pyGet])

/-- C4 counterexample: decoding the list `72 00 52 05` (declared element
count 2, first child the sentinel `00`, second child the integer `52 05`)
produces the list `[5]`: the child after the sentinel was still decoded and
appended, whereas the claim says the produced list holds exactly the
children decoded before the sentinel, i.e. would be empty. -/
theorem c4_counterexample :
    decodeValue 5 [0x72, 0x00, 0x52, 0x05] 0 =
      .ok (.list [.int 5], 4, false) ∧
    [SmlValue.int 5] ≠ ([] : List SmlValue) := by
  constructor
  · have e1 : (114 : Nat) &&& 15 = 2 := by decide
    have e2 : (82 : Nat) &&& 15 = 2 := by decide
    have hA : decodeValue 4 [0x72, 0x00, 0x52, 0x05] 1 = .ok (.int 0, 2, true) := by
      simp +decide [decodeValue, decodeTypeLengthField, tlfLoop, pyGet]
    have hB : decodeValue 4 [0x72, 0x00, 0x52, 0x05] 2 = .ok (.int 5, 4, false) := by
      simp +decide [decodeValue, decodeTypeLengthField, tlfLoop, pyGet, pySlice,
        intFromBytesBESigned, intFromBytesBE, e2]
    have hC : decodeListLoop 4 [0x72, 0x00, 0x52, 0x05] 2 1 2 false [] =
        .ok ([.int 5], 4, false) := by
      simp only [decodeListLoop, hA, hB, exceptBind_ok]
      norm_num
    simp +decide [decodeValue, decodeTypeLengthField, tlfLoop, pyGet, e1, hC]
  · simp


/-- C7, confirmed: for 4-byte receiver and sender addresses and any
timestamp representable in the 4-byte time field, the packet built before
escaping is exactly 27 bytes, starts with command byte 0x15, has frame
byte 0x80 at offset 9, and ends with the CRC8 of the 26 preceding bytes;
building fails exactly when the escaped length exceeds 32 bytes (the
length-27 guard never fires). -/
theorem c7_request_info_packet (recv send : List Nat) (t : Nat)
    (hr : recv.length = 4) (hs : send.length = 4) (ht : t < 2 ^ 32) :
    ∃ p : List Nat,
      p.length = 27 ∧
      p.head? = some 0x15 ∧
      p[9]? = some 0x80 ∧
      p.getLast? = some (calculateCrc8 p 26) ∧
      createRequestInfoPacket recv send t =
        (if 32 < (escapeData p).length then
           .error "Internal error CreateRequestInfoPacket: packet size > MAX_PACKET_SIZE"
         else .ok (escapeData p)) := by
  obtain ⟨a, b, c, d, rfl⟩ := length_eq_four hr
  obtain ⟨e, f, g, h8, rfl⟩ := length_eq_four hs
  have ht' : t < 256 ^ 4 := by
    have e32 : (256 : Nat) ^ 4 = 2 ^ 32 := by norm_num
    rw [e32]
    exact ht
  set pl : List Nat :=
    [0x0B, 0x00] ++ natToBytesBE t 4 ++
      [0x00, 0x00, 0x00, 0x05, 0x00, 0x00, 0x00, 0x00] with hpl
  have hplen : pl.length = 14 := by
    rw [hpl]
    simp [natToBytesBE_length]
  have hpb : ∀ x ∈ pl, x < 256 := by
    intro x hx
    rw [hpl] at hx
    rcases List.mem_append.mp hx with hx' | hx'
    · rcases List.mem_append.mp hx' with hx'' | hx''
      · simp only [List.mem_cons, List.not_mem_nil, or_false] at hx''
        rcases hx'' with rfl | rfl <;> norm_num
      · exact natToBytesBE_lt t 4 x hx''
    · simp only [List.mem_cons, List.not_mem_nil, or_false] at hx'
      rcases hx' with rfl | rfl | rfl | rfl | rfl | rfl | rfl | rfl <;> norm_num
  have hc16 : calculateCrc16 pl pl.length < 65536 := calculateCrc16_lt _ _ hpb
  have hc16' : calculateCrc16 pl pl.length < 256 ^ 2 := by
    have : (256 : Nat) ^ 2 = 65536 := by norm_num
    omega
  set cb : List Nat := natToBytesBE (calculateCrc16 pl pl.length) 2 with hcb
  have hcblen : cb.length = 2 := by
    rw [hcb]
    exact natToBytesBE_length _ _
  set P1 : List Nat := [0x15] ++ [a, b, c, d] ++ [e, f, g, h8] ++ [0x80] ++ pl ++ cb with hP1
  have hP1len : P1.length = 26 := by
    rw [hP1]
    simp [hplen, hcblen]
  have hc8 : calculateCrc8 P1 P1.length < 256 :=
    calculateCrc8_lt _ _ (by omega) (by omega)
  have hc8' : calculateCrc8 P1 P1.length < 256 ^ 1 := by simpa using hc8
  have hb1 : natToBytesBE (calculateCrc8 P1 P1.length) 1 = [calculateCrc8 P1 P1.length] := by
    simp [natToBytesBE, Nat.mod_eq_of_lt hc8]
  refine ⟨P1 ++ [calculateCrc8 P1 P1.length], ?_, ?_, ?_, ?_, ?_⟩
  · simp [hP1len]
  · rw [hP1]
    rfl
  · rw [hP1]
    simp
  · have hc : calculateCrc8 (P1 ++ [calculateCrc8 P1 P1.length]) 26 =
        calculateCrc8 P1 P1.length := by
      conv_lhs => rw [calculateCrc8, ← hP1len, List.take_left]
      rw [calculateCrc8, List.take_length]
    rw [hc, List.getLast?_concat]
  · simp only [createRequestInfoPacket, createPacketHeader, createRequestInfoPayload,
      intToBytesBE]
    simp only [List.length_cons, List.length_nil]
    rw [if_neg (by norm_num), if_neg (by norm_num), if_pos ht']
    simp only [exceptBind_ok]
    rw [if_pos hc16']
    simp only [exceptBind_ok]
    rw [if_pos hc8']
    simp only [exceptBind_ok, hb1]
    rw [if_neg (by simp [natToBytesBE_length])]

/-- C7 witness: concrete addresses and timestamp 0. -/
theorem c7_request_info_packet_witness :
    ∃ p : List Nat,
      p.length = 27 ∧
      p.head? = some 0x15 ∧
      p[9]? = some 0x80 ∧
      p.getLast? = some (calculateCrc8 p 26) ∧
      createRequestInfoPacket [1, 2, 3, 4] [5, 6, 7, 8] 0 =
        (if 32 < (escapeData p).length then
           .error "Internal error CreateRequestInfoPacket: packet size > MAX_PACKET_SIZE"
         else .ok (escapeData p)) :=
  c7_request_info_packet [1, 2, 3, 4] [5, 6, 7, 8] 0 rfl rfl (by norm_num)


set_option maxHeartbeats 2000000 in
/-- C9, confirmed: for every data set with a byte-string identifier at
field 0 and an integer value at field 5, extraction returns exactly the
entry of the 8-row OBIS table (name and divisor: 1e8 for the four
cumulative-energy ids, 1e2 for the four power ids) with the value divided
accordingly, and `none` for every other identifier; in the extraction loop
an unrecognized data set contributes no entry and raises no error, while a
recognized one stores its named reading. -/
theorem c9_obis_table :
    (∀ (l : List SmlValue) (s : List Nat) (x : Int),
        l[0]? = some (.str s) → l[5]? = some (.int x) →
        extractInfoFromDataSet (.list l) =
          .ok ((obisLookup s).map (fun p => (p.1, (x : ℚ) / p.2)))) ∧
    (∀ (l : List SmlValue) (s : List Nat) (v : SmlValue) (rest : List SmlValue)
        (info : List (String × ℚ)),
        l[0]? = some (.str s) → l[5]? = some v → obisLookup s = none →
        extractInfoLoop (.list l :: rest) info = extractInfoLoop rest info) ∧
    (∀ (l : List SmlValue) (s : List Nat) (x : Int) (rest : List SmlValue)
        (info : List (String × ℚ)) (nm : String) (dv : ℚ),
        l[0]? = some (.str s) → l[5]? = some (.int x) → obisLookup s = some (nm, dv) →
        extractInfoLoop (.list l :: rest) info =
          extractInfoLoop rest (dictSet info nm ((x : ℚ) / dv))) := by
  have hmap : ∀ (l : List SmlValue) (s : List Nat) (x : Int),
      l[0]? = some (.str s) → l[5]? = some (.int x) →
      extractInfoFromDataSet (.list l) =
        .ok ((obisLookup s).map (fun p => (p.1, (x : ℚ) / p.2))) := by
    intro l s x h0 h5
    simp only [extractInfoFromDataSet, smlIndex, h0, h5, exceptBind_ok]
    simp only [obisLookup]
    split_ifs <;> simp [smlDiv]
  refine ⟨hmap, ?_, ?_⟩
  · intro l s v rest info h0 h5 hnone
    have h1 : extractInfoFromDataSet (.list l) = .ok none := by
      simp only [extractInfoFromDataSet, smlIndex, h0, h5, exceptBind_ok]
      simp only [obisLookup] at hnone
      split_ifs at hnone
      simp_all
    simp only [extractInfoLoop, h1, exceptBind_ok]
  · intro l s x rest info nm dv h0 h5 hsome
    have h1 := hmap l s x h0 h5
    rw [hsome] at h1
    simp only [extractInfoLoop, h1, exceptBind_ok]
    simp

theorem c9_obis_table_witness :
    extractInfoFromDataSet
        (.list [.str [0x01, 0x00, 0x01, 0x08, 0x00, 0xFF],
                .int 0, .int 0, .int 0, .int 0, .int 7]) =
      .ok (some ("+A", (7 : ℚ) / 100000000)) := by
  have h := c9_obis_table.1
    [.str [0x01, 0x00, 0x01, 0x08, 0x00, 0xFF], .int 0, .int 0, .int 0, .int 0, .int 7]
    [0x01, 0x00, 0x01, 0x08, 0x00, 0xFF] 7 (by simp) (by simp)
  rw [h]
  simp [obisLookup]
